import Mathlib

/-!
Verification of a minimal git client (object store, tree writer, commit
writer, packfile/delta parser, checkout) against its specification.

Modelling conventions:
* Go byte slices and Go strings (which are byte strings) are `List Nat`
  with every element below 256.
* Machine integers are `Nat`; a reduction modulo 2^64 is applied exactly
  where Go's `uint64` arithmetic can wrap.
* Fallible Go code (returned `error`s, `os.Exit` diagnostics, and run-time
  panics) is modelled with `Except String`.
* Library primitives used by the source (`crypto/sha1`, `compress/zlib`)
  are modelled from their published specifications (FIPS 180-4, RFC
  1950/1951); the zlib model supports streams made of stored (uncompressed)
  deflate blocks, which covers every stream evaluated in this development.
-/

set_option maxRecDepth 1000000
set_option maxHeartbeats 1000000

deriving instance DecidableEq for Except

/-- ASCII bytes of a string literal. -/
def bytes (s : String) : List Nat := s.toList.map Char.toNat

def decAux : Nat → Nat → List Nat
  | 0, _ => []
  | f+1, n => if n < 10 then [48 + n] else decAux f (n / 10) ++ [48 + n % 10]

/-- Decimal ASCII rendering of a natural number, as Go `fmt` produces for `%d`. -/
def decimalBytes (n : Nat) : List Nat := decAux (n + 1) n

/-! SHA-1, modelled from FIPS 180-4 as implemented by Go `crypto/sha1`
(`shaData` / `sha1.Sum` / `sha1.New` in the source). -/

def w32 : Nat := 4294967296

def w64 : Nat := 18446744073709551616

def rotl32 (n x : Nat) : Nat := ((x <<< n) % w32) ||| (x >>> (32 - n))

def bytesBE (k n : Nat) : List Nat := (List.range k).map (fun i => (n >>> (8 * (k - 1 - i))) % 256)

def sha1pad (msg : List Nat) : List Nat :=
  msg ++ [128] ++ List.replicate ((64 + 55 - (msg.length % 64)) % 64) 0 ++ bytesBE 8 (8 * msg.length)

def chunksAux : Nat → List Nat → List (List Nat)
  | 0, _ => []
  | _+1, [] => []
  | f+1, l => l.take 64 :: chunksAux f (l.drop 64)

def chunks64 (l : List Nat) : List (List Nat) := chunksAux (l.length + 1) l

def toWords (block : List Nat) : List Nat :=
  (List.range 16).map (fun j =>
    (block.getD (4 * j) 0) <<< 24 + (block.getD (4 * j + 1) 0) <<< 16 +
    (block.getD (4 * j + 2) 0) <<< 8 + block.getD (4 * j + 3) 0)

def extendWords : Nat → List Nat → List Nat
  | 0, acc => acc
  | f+1, acc =>
    let n := acc.length
    extendWords f (acc ++ [rotl32 1 ((acc.getD (n - 3) 0) ^^^ (acc.getD (n - 8) 0) ^^^
      (acc.getD (n - 14) 0) ^^^ (acc.getD (n - 16) 0))])

def sha1f (i b c d : Nat) : Nat :=
  if i < 20 then (b &&& c) ||| ((w32 - 1 - b) &&& d)
  else if i < 40 then b ^^^ c ^^^ d
  else if i < 60 then (b &&& c) ||| (b &&& d) ||| (c &&& d)
  else b ^^^ c ^^^ d

def sha1k (i : Nat) : Nat :=
  if i < 20 then 1518500249
  else if i < 40 then 1859775393
  else if i < 60 then 2400959708
  else 3395469782

def sha1round (st : Nat × Nat × Nat × Nat × Nat) (iw : Nat × Nat) : Nat × Nat × Nat × Nat × Nat :=
  match st, iw with
  | (a, b, c, d, e), (i, wi) =>
    ((rotl32 5 a + sha1f i b c d + e + sha1k i + wi) % w32, a, rotl32 30 b, c, d)

def sha1block (h : Nat × Nat × Nat × Nat × Nat) (block : List Nat) : Nat × Nat × Nat × Nat × Nat :=
  match h with
  | (h0, h1, h2, h3, h4) =>
    let w := extendWords 64 (toWords block)
    match ((List.range 80).zip w).foldl sha1round (h0, h1, h2, h3, h4) with
    | (a, b, c, d, e) =>
      ((h0 + a) % w32, (h1 + b) % w32, (h2 + c) % w32, (h3 + d) % w32, (h4 + e) % w32)

/-- SHA-1 digest (20 bytes) of a byte list. -/
def sha1 (msg : List Nat) : List Nat :=
  match (chunks64 (sha1pad msg)).foldl sha1block
      (1732584193, 4023233417, 2562383102, 271733878, 3285377520) with
  | (h0, h1, h2, h3, h4) => bytesBE 4 h0 ++ bytesBE 4 h1 ++ bytesBE 4 h2 ++ bytesBE 4 h3 ++ bytesBE 4 h4

def hexDigit (n : Nat) : Nat := if n < 10 then 48 + n else 87 + n

/-- Lowercase hex rendering, as Go `%x` / `hex.EncodeToString` produce. -/
def hexBytes (l : List Nat) : List Nat :=
  l.foldr (fun b acc => hexDigit (b / 16) :: hexDigit (b % 16) :: acc) []

/-! Object codec.  `writeObject` (and `hashObject`, and the `wrapper` used
when persisting fetched objects) serialize an object as
`"<type> <len>\x00" ++ payload` before compressing; the digest of the bytes
of that serialization names the object.  Since the store compresses with
zlib on write and inflates on read, the stored object is modelled by its
serialized (uncompressed) bytes. -/

/-- Header-prefixed serialization `"<type> <len>\x00" ++ payload`, `type` given as bytes.
This is `storeContents` in `writeObject` and the output of `wrapper` in the source. -/
def storeContentsB (t : List Nat) (data : List Nat) : List Nat :=
  t ++ [32] ++ decimalBytes data.length ++ [0] ++ data

/-- Header-prefixed serialization with the type given as a string literal. -/
def storeContents (t : String) (data : List Nat) : List Nat := storeContentsB (bytes t) data

/-- Digest computed by `writeObject t data` in the source (`shaData(storeContents)`). -/
def writeObjectSha (t : String) (data : List Nat) : List Nat := sha1 (storeContents t data)

/-! Commit writer (`commit` in the source). -/

/-- The commit payload built by `commit`:
`"tree <t>\n" ++ "parent <p>\n" ++ "\n" ++ msg ++ "\n"`. -/
def commitPayload (t p msg : List Nat) : List Nat :=
  bytes "tree " ++ t ++ [10] ++ bytes "parent " ++ p ++ [10] ++ [10] ++ msg ++ [10]

/-- The digest `commit` computes, prints, and writes to `refs/heads/master`:
`shaData([]byte(sb.String()))`, i.e. SHA-1 of the bare payload. -/
def commitHashHex (t p msg : List Nat) : List Nat := hexBytes (sha1 (commitPayload t p msg))

/-- The bytes `commit` actually stores (before zlib):
`"commit <len>\x00" ++ payload`. -/
def commitStoreContents (t p msg : List Nat) : List Nat :=
  storeContents "commit" (commitPayload t p msg)

/-! `cat-file -p` (in `main`): inflate the object file, split the byte string
on NUL, print element 1. -/

/-- `strings.Split` on a single separator byte. -/
def splitOnByte (sep : Nat) : List Nat → List (List Nat)
  | [] => [[]]
  | b :: rest =>
    if b = sep then [] :: splitOnByte sep rest
    else
      match splitOnByte sep rest with
      | [] => [[b]]
      | h :: t => (b :: h) :: t

/-- What `cat-file -p` prints, given the inflated object bytes:
`strings.Split(string(b), "\x00")[1]`. -/
def catFileP (obj : List Nat) : List Nat := (splitOnByte 0 obj).getD 1 []

/-! Packfile per-entry header (`readObjectTypeAndLen` in the source).
The source adds the whole continuation byte, `num += int(b) << (4+7*i)`,
without masking off its most significant bit. -/

def lenLoop (i num : Nat) : List Nat → Except String (Nat × List Nat)
  | [] => .error "EOF"
  | b :: rest =>
    let num2 := num + (b <<< (4 + 7 * i))
    if b &&& 128 = 0 then .ok (num2, rest)
    else lenLoop (i + 1) num2 rest

/-- `readObjectTypeAndLen`: 3-bit type tag in bits 4-6 of the first byte, low
4 bits start the length, continuation bytes added unmasked at shifts 4, 11, 18, … -/
def readObjectTypeAndLen (l : List Nat) : Except String (Nat × Nat × List Nat) :=
  match l with
  | [] => .error "EOF"
  | b :: rest =>
    let objType := (b &&& 112) >>> 4
    let num := b &&& 15
    if b &&& 128 = 0 then .ok (objType, num, rest)
    else
      match lenLoop 0 num rest with
      | .error e => .error e
      | .ok (num2, rest2) => .ok (objType, num2, rest2)

def specLenLoop (i num : Nat) : List Nat → Option Nat
  | [] => none
  | b :: rest =>
    let num2 := num ||| ((b &&& 127) <<< (4 + 7 * i))
    if b &&& 128 = 0 then some num2 else specLenLoop (i + 1) num2 rest

/-- Modelled from the claim's formula (reference semantics for the entry
header): `len = (b0 and 0x0F) or ((b1 and 0x7F) shl 4) or ((b2 and 0x7F) shl 11) or ...`,
each continuation byte contributing only its low 7 bits. -/
def specHeaderLen (l : List Nat) : Option Nat :=
  match l with
  | [] => none
  | b :: rest =>
    if b &&& 128 = 0 then some (b &&& 15) else specLenLoop 0 (b &&& 15) rest

/-! Delta engine (`readDeltified` in the source) and `binary.ReadUvarint`. -/

def readUvarintAux (i x s : Nat) : List Nat → Except String (Nat × List Nat)
  | [] => .error "EOF"
  | b :: rest =>
    if i = 10 then .error "overflow"
    else if b < 128 then
      if i = 9 ∧ 1 < b then .error "overflow"
      else .ok (x ||| (b <<< s), rest)
    else readUvarintAux (i + 1) ((x ||| ((b &&& 127) <<< s)) % w64) (s + 7) rest

/-- `binary.ReadUvarint`: little-endian base-128 varint, at most 10 bytes. -/
def readUvarint (l : List Nat) : Except String (Nat × List Nat) := readUvarintAux 0 0 0 l

def copyAccum (op : Nat) (idxs : List Nat) (sub : Nat) (l : List Nat) (acc : Nat) :
    Except String (Nat × List Nat) :=
  match idxs with
  | [] => .ok (acc, l)
  | i :: is =>
    if (op >>> i) &&& 1 > 0 then
      match l with
      | [] => .error "EOF"
      | b :: rest => copyAccum op is sub rest (acc + (b <<< ((i - sub) * 8)))
    else copyAccum op is sub l acc

/-- Offset of a copy instruction: bits 0-3 of the op byte select up to 4
little-endian offset bytes. -/
def readCopyOffset (op : Nat) (l : List Nat) : Except String (Nat × List Nat) :=
  copyAccum op [0, 1, 2, 3] 0 l 0

/-- Size of a copy instruction: bits 4-6 of the op byte select up to 3
little-endian size bytes. -/
def readCopySize (op : Nat) (l : List Nat) : Except String (Nat × List Nat) :=
  copyAccum op [4, 5, 6] 4 l 0

/-- Message for the Go run-time panic raised by an out-of-range slice
`baseObj.Buf[offset : offset+size]`; the total embedding routes it into the
error branch. -/
def slicePanicMsg : String := "slice bounds out of range"

/-- The instruction loop of `readDeltified` (`for reader.Len() > 0`), with the
remaining reader bytes passed explicitly and fuel bounding the iteration
count (one op byte is consumed per iteration, so `length + 1` fuel is exact). -/
def applyDelta : Nat → List Nat → List Nat → List Nat → Except String (List Nat)
  | 0, _, _, _ => .error "model: fuel exhausted"
  | _+1, [], _, acc => .ok acc
  | f+1, op :: rest, base, acc =>
    if op &&& 128 = 0 then
      let n := op &&& 127
      if rest.length < n then .error "EOF"
      else applyDelta f (rest.drop n) base (acc ++ rest.take n)
    else
      match readCopyOffset op rest with
      | .error e => .error e
      | .ok (offset, r1) =>
        match readCopySize op r1 with
        | .error e => .error e
        | .ok (size, r2) =>
          if offset + size ≤ base.length then
            applyDelta f r2 base (acc ++ (base.drop offset).take size)
          else .error slicePanicMsg

/-- A parsed pack object: numeric type tag and payload bytes. -/
structure Object where
  type : Nat
  buf : List Nat
deriving DecidableEq, Repr

/-- `readDeltified(reader, baseObj)`: read and discard the base-size varint,
read the result-size varint, run the instruction loop, check the result length. -/
def readDeltified (l : List Nat) (baseObj : Object) : Except String (List Nat) :=
  match readUvarint l with
  | .error e => .error e
  | .ok (_, l1) =>
    match readUvarint l1 with
    | .error e => .error e
    | .ok (dstObjLen, l2) =>
      match applyDelta (l2.length + 1) l2 baseObj.buf [] with
      | .error e => .error e
      | .ok result =>
        if result.length = dstObjLen then .ok result
        else .error "invalid deltified buf"

/-! Compression bridge. `decompressObject` wraps Go's `compress/zlib` reader
over a `bytes.Reader`; since that reader implements `io.ByteReader`, the
inflater consumes exactly one zlib stream and leaves the cursor on the next
byte.  Modelled from RFC 1950/1951 for streams whose deflate blocks are
stored (uncompressed) blocks; a compressed block type is outside the model
and reported as an error. -/

def adlerStep (p : Nat × Nat) (b : Nat) : Nat × Nat :=
  ((p.1 + b) % 65521, (p.2 + p.1 + b) % 65521)

/-- Adler-32 checksum (RFC 1950), verified by Go's zlib reader at end of stream. -/
def adler32 (l : List Nat) : Nat :=
  match l.foldl adlerStep (1, 0) with
  | (a, b) => (b <<< 16) ||| a

def inflateBlocks : Nat → List Nat → List Nat → Except String (List Nat × List Nat)
  | 0, _, _ => .error "model: fuel exhausted"
  | _+1, [], _ => .error "unexpected EOF"
  | f+1, b :: rest, acc =>
    if (b >>> 1) &&& 3 ≠ 0 then .error "model: compressed deflate block"
    else
      match rest with
      | l0 :: l1 :: n0 :: n1 :: rest2 =>
        let len := l0 + 256 * l1
        if n0 + 256 * n1 ≠ 65535 - len then .error "flate: corrupt input"
        else if rest2.length < len then .error "unexpected EOF"
        else if b &&& 1 = 1 then .ok (acc ++ rest2.take len, rest2.drop len)
        else inflateBlocks f (rest2.drop len) (acc ++ rest2.take len)
      | _ => .error "unexpected EOF"

/-- `decompressObject`: inflate one zlib stream, returning the inflated bytes
and the unconsumed remainder of the input. -/
def decompressObject (l : List Nat) : Except String (List Nat × List Nat) :=
  match l with
  | cmf :: flg :: rest =>
    if cmf &&& 15 ≠ 8 then .error "zlib: invalid header"
    else if ((cmf <<< 8) + flg) % 31 ≠ 0 then .error "zlib: invalid header"
    else if flg &&& 32 ≠ 0 then .error "zlib: dictionary required"
    else
      match inflateBlocks (l.length + 1) rest [] with
      | .error e => .error e
      | .ok (out, rest2) =>
        match rest2 with
        | a0 :: a1 :: a2 :: a3 :: rest3 =>
          if (a0 <<< 24) + (a1 <<< 16) + (a2 <<< 8) + a3 ≠ adler32 out then
            .error "zlib: invalid checksum"
          else .ok (out, rest3)
        | _ => .error "unexpected EOF"
  | _ => .error "unexpected EOF"

/-! The in-memory pack-parse table `shaToObj` and the read-object loop. -/

/-- `Object.typeString`. -/
def typeString (t : Nat) : Except String (List Nat) :=
  if t = 1 then .ok (bytes "commit")
  else if t = 2 then .ok (bytes "tree")
  else if t = 3 then .ok (bytes "blob")
  else .error "invalid type"

/-- `Object.sha`: lowercase hex of SHA-1 of the header-prefixed buffer. -/
def objectShaHex (o : Object) : Except String (List Nat) :=
  match typeString o.type with
  | .error e => .error e
  | .ok t => .ok (hexBytes (sha1 (storeContentsB t o.buf)))

abbrev MapSO : Type := List (List Nat × Object)

def mapInsert (k : List Nat) (v : Object) : MapSO → MapSO
  | [] => [(k, v)]
  | (k2, v2) :: rest => if k2 = k then (k, v) :: rest else (k2, v2) :: mapInsert k v rest

def mapFind (k : List Nat) : MapSO → Option Object
  | [] => none
  | (k2, v) :: rest => if k2 = k then some v else mapFind k rest

/-- `saveObject`: index the object in `shaToObj` under its hex digest. -/
def saveObject (o : Object) (m : MapSO) : Except String MapSO :=
  match objectShaHex o with
  | .error e => .error e
  | .ok sha => .ok (mapInsert sha o m)

/-- `readSha`: 20 raw digest bytes rendered as lowercase hex (a short read
leaves the tail of Go's zero-initialized 20-byte array at zero). -/
def readSha (l : List Nat) : Except String (List Nat × List Nat) :=
  match l with
  | [] => .error "EOF"
  | _ =>
    let t := l.take 20
    .ok (hexBytes (t ++ List.replicate (20 - t.length) 0), l.drop 20)

/-- `readObject`: one packfile entry; ref-delta entries resolve their base in
the table, type 6 is unsupported, all other tags inflate and length-check. -/
def readObject (l : List Nat) (m : MapSO) : Except String (List Nat × MapSO) :=
  match readObjectTypeAndLen l with
  | .error e => .error e
  | .ok (objType, objLen, l1) =>
    if objType = 7 then
      match readSha l1 with
      | .error e => .error e
      | .ok (baseSha, l2) =>
        match mapFind baseSha m with
        | none => .error "unknown obj sha"
        | some baseObj =>
          match decompressObject l2 with
          | .error e => .error e
          | .ok (dec, l3) =>
            match readDeltified dec baseObj with
            | .error e => .error e
            | .ok delt =>
              match saveObject ⟨baseObj.type, delt⟩ m with
              | .error e => .error e
              | .ok m2 => .ok (l3, m2)
    else if objType = 6 then .error "Unsupported"
    else
      match decompressObject l1 with
      | .error e => .error e
      | .ok (dec, l3) =>
        if objLen ≠ dec.length then .error "object length mismatch"
        else
          match saveObject ⟨objType, dec⟩ m with
          | .error e => .error e
          | .ok m2 => .ok (l3, m2)

def fetchLoop : Nat → List Nat → MapSO → Except String MapSO
  | 0, _, _ => .error "model: fuel exhausted"
  | f+1, l, m =>
    match readObject l m with
    | .error e => .error e
    | .ok (l2, m2) => if l2.length ≤ 20 then .ok m2 else fetchLoop f l2 m2

/-- Result of `fetchObjects` on a fetched packfile buffer: whether the
checksum-mismatch diagnostic was printed, and the populated object table. -/
structure FetchResult where
  mismatchWarned : Bool
  objects : MapSO
deriving DecidableEq, Repr

/-- `fetchObjects`, applied to the already-fetched packfile bytes (the HTTP
transfer itself is I/O).  A trailer mismatch only prints a message
(recorded in `mismatchWarned`); parsing starts after the fixed 12-byte
header and stops once at most the 20-byte trailer remains. -/
def fetchObjects (packetFileBuffer : List Nat) : Except String FetchResult :=
  let calculatedChecksum := packetFileBuffer.drop (packetFileBuffer.length - 20)
  let storedChecksum := sha1 (packetFileBuffer.take (packetFileBuffer.length - 20))
  let warned := !(storedChecksum == calculatedChecksum)
  match fetchLoop (packetFileBuffer.length + 1) (packetFileBuffer.drop 12) [] with
  | .error e => .error e
  | .ok m => .ok ⟨warned, m⟩

/-- Counterexample packfile: valid 12-byte header, one blob entry `"A"`
carried in a zlib stream with a single stored deflate block, and a 20-byte
trailer of zeros — which is not the SHA-1 of the preceding bytes. -/
def cexBadPack : List Nat :=
  bytes "PACK" ++ [0, 0, 0, 2] ++ [0, 0, 0, 1] ++
    [49] ++ [120, 1, 1, 1, 0, 254, 255, 65, 0, 66, 0, 66] ++ List.replicate 20 0

/-! Tree writer (`writeTree` in the source).  The filesystem is abstracted to
an in-memory listing; `os.ReadDir` returns entries sorted by filename, and
the caller supplies the listing in that order.  Each row is the Go string
`fmt.Sprintf("<mode> <name>\x00<raw 20 digest bytes>")`; `sort.Slice` orders
rows by the comparator
`entries[i][strings.IndexByte(entries[i], ' ')+1:] < entries[j][strings.IndexByte(entries[i], ' ')+1:]`
(note: the cut index of entry `i` is used on both sides).  Insertion sort by
that comparator reproduces `sort.Slice`'s result whenever the comparator is
a strict total order on the rows at hand, as it is on the inputs evaluated
below. -/

/-- A directory listing entry: a regular file with contents, or a subdirectory. -/
inductive FsEntry where
  | file : List Nat → List Nat → FsEntry
  | dir : List Nat → List FsEntry → FsEntry
deriving Repr

def fsName : FsEntry → List Nat
  | .file n _ => n
  | .dir n _ => n

/-- Go byte-string `<`: lexicographic with a proper prefix ordered first. -/
def lexLt : List Nat → List Nat → Bool
  | [], [] => false
  | [], _ :: _ => true
  | _ :: _, [] => false
  | a :: as, b :: bs => if a < b then true else if b < a then false else lexLt as bs

def insertBy {α : Type} (lt : α → α → Bool) (x : α) : List α → List α
  | [] => [x]
  | y :: ys => if lt x y then x :: y :: ys else y :: insertBy lt x ys

def insertionSortBy {α : Type} (lt : α → α → Bool) : List α → List α
  | [] => []
  | x :: xs => insertBy lt x (insertionSortBy lt xs)

/-- The source's row comparator: both keys are cut at the first space of the
left row (`strings.IndexByte` of `entries[i]` used for both slices). -/
def goRowLt (x y : List Nat) : Bool :=
  match x.findIdx? (· = 32) with
  | none => lexLt x y
  | some i => lexLt (x.drop (i + 1)) (y.drop (i + 1))

def flattenSorted (rows : List (List Nat)) : List Nat :=
  (insertionSortBy goRowLt rows).foldr (· ++ ·) []

/-- The row `writeTree` builds for one listing entry (recursion depth bounded
by explicit fuel so that the definition stays kernel-computable; every
evaluation below receives enough fuel): a file row is
`"100644 <name>\x00" ++ blob digest`, a directory row is
`"40000 <name>\x00" ++ digest` of the recursively written subtree. -/
def treeRowF : Nat → FsEntry → List Nat
  | 0, _ => []
  | _+1, .file name content => bytes "100644 " ++ name ++ [0] ++ sha1 (storeContents "blob" content)
  | f+1, .dir name children =>
    bytes "40000 " ++ name ++ [0] ++
      sha1 (storeContents "tree" (flattenSorted
        ((children.filter (fun e => fsName e != bytes ".git")).map (treeRowF f))))

/-- Payload of the tree object `writeTree` emits for a directory listing
(entries named `.git` skipped, rows sorted by the source's comparator). -/
def writeTreePayload (f : Nat) (children : List FsEntry) : List Nat :=
  flattenSorted ((children.filter (fun e => fsName e != bytes ".git")).map (treeRowF f))

/-- Digest of the tree object `writeTree` returns. -/
def writeTreeSha (f : Nat) (children : List FsEntry) : List Nat :=
  sha1 (storeContents "tree" (writeTreePayload f children))

/-- Modelled from the claim: the canonical comparison key is the entry name,
with a subdirectory name compared as if it ended in `/`; neither the mode
nor the digest bytes take part. -/
def specKey : FsEntry → List Nat
  | .file n _ => n
  | .dir n _ => n ++ [47]

def specEntryLt (x y : FsEntry) : Bool := lexLt (specKey x) (specKey y)

/-- Modelled from the claim: tree payload with the entries in canonical order. -/
def specCanonicalTreePayload (f : Nat) (children : List FsEntry) : List Nat :=
  ((insertionSortBy specEntryLt (children.filter (fun e => fsName e != bytes ".git"))).map
    (treeRowF f)).foldr (· ++ ·) []

/-- Counterexample listing: two empty subdirectories `a` and `a-b`
(in `os.ReadDir`'s sorted order). -/
def cexDirListing : List FsEntry := [.dir (bytes "a") [], .dir (bytes "a-b") []]

/-! Checkout (`restoreRepository` / `traverseTree` in the source).  The object
store is abstracted to a map from hex digest to the inflated object bytes
(header plus payload); file writes are collected as `(path, contents)`
pairs.  Recursion through the store is bounded by explicit fuel; every run
evaluated here is given enough fuel to finish. -/

abbrev Store := List (List Nat × List Nat)

def storeFind (k : List Nat) : Store → Option (List Nat)
  | [] => none
  | (k2, v) :: rest => if k2 = k then some v else storeFind k rest

/-- Split at the first occurrence of a separator byte: the bytes before it
and the bytes after it (`bufio.ReadString`-style; `none` when the separator
is missing, which surfaces as `io.EOF` in the source). -/
def readUntil (sep : Nat) : List Nat → Option (List Nat × List Nat)
  | [] => none
  | b :: rest =>
    if b = sep then some ([], rest)
    else
      match readUntil sep rest with
      | none => none
      | some (seg, r) => some (b :: seg, r)

def parseDecimalAux : List Nat → Nat → Except String Nat
  | [], acc => .ok acc
  | b :: rest, acc =>
    if 48 ≤ b ∧ b ≤ 57 then parseDecimalAux rest (acc * 10 + (b - 48))
    else .error "invalid syntax"

/-- `strconv.ParseInt(s, 10, 64)` restricted to the non-negative values used here. -/
def parseDecimal (l : List Nat) : Except String Nat :=
  if l = [] then .error "invalid syntax" else parseDecimalAux l 0

def parseOctalAux : List Nat → Nat → Except String Nat
  | [], acc => .ok acc
  | b :: rest, acc =>
    if 48 ≤ b ∧ b ≤ 55 then parseOctalAux rest (acc * 8 + (b - 48))
    else .error "invalid syntax"

/-- `strconv.ParseInt(s, 8, 64)` restricted to the non-negative values used here. -/
def parseOctal (l : List Nat) : Except String Nat :=
  if l = [] then .error "invalid syntax" else parseOctalAux l 0

/-- `NewGitObjectReader` + `ReadContents`: read the type word up to the space,
the decimal size up to the NUL, then exactly `size` payload bytes. -/
def readObjectContent (store : Store) (objSha : List Nat) : Except String (List Nat) :=
  match storeFind objSha store with
  | none => .error "no such object file"
  | some obj =>
    match readUntil 32 obj with
    | none => .error "EOF"
    | some (_, r1) =>
      match readUntil 0 r1 with
      | none => .error "EOF"
      | some (sizeStr, r2) =>
        match parseDecimal sizeStr with
        | .error e => .error e
        | .ok size => if r2.length < size then .error "unexpected EOF" else .ok (r2.take size)

/-- A parsed tree entry (`TreeChild` in the source). -/
structure TreeChild where
  mode : List Nat
  name : List Nat
  sha : List Nat
deriving DecidableEq, Repr

def parseTreeAux : Nat → List Nat → List TreeChild → Except String (List TreeChild)
  | 0, _, _ => .error "model: fuel exhausted"
  | f+1, l, acc =>
    match readUntil 32 l with
    | none => .ok acc
    | some (mode, r1) =>
      match readUntil 0 r1 with
      | none => .error "EOF"
      | some (name, r2) =>
        if r2 = [] then .error "EOF"
        else
          let t := r2.take 20
          parseTreeAux f (r2.drop 20)
            (acc ++ [⟨mode, name, hexBytes (t ++ List.replicate (20 - t.length) 0)⟩])

/-- `parseTree`: mode up to the space, name up to the NUL, 20 raw digest
bytes rendered as hex; stops at end of input. -/
def parseTree (treeBuf : List Nat) : Except String (List TreeChild) :=
  parseTreeAux (treeBuf.length + 1) treeBuf []

/-- `getPerm`: only modes starting with `100` are accepted; the permission is
the octal value of the remaining digits. -/
def getPerm (mode : List Nat) : Except String Nat :=
  if (bytes "100").isPrefixOf mode then parseOctal (mode.drop 3) else .error "invalid mode"

/-- `path.Join` for the relative paths materialized under the repository root. -/
def pathJoin (a b : List Nat) : List Nat := if a = [] then b else a ++ [47] ++ b

/-- The loop body of `traverseTree` for one child, with the recursive
traversal of subtrees passed in as `recur`: a mode starting with `100` is
materialized as a file (read the blob, check the permission, write the
file); any other mode is recursed into as a directory. -/
def traverseChildWith (recur : List Nat → List Nat → Except String (List (List Nat × List Nat)))
    (store : Store) (curDir : List Nat) (child : TreeChild) :
    Except String (List (List Nat × List Nat)) :=
  if (bytes "100").isPrefixOf child.mode then
    match readObjectContent store child.sha with
    | .error e => .error e
    | .ok blobBuf =>
      match getPerm child.mode with
      | .error e => .error e
      | .ok _ => .ok [(pathJoin curDir child.name, blobBuf)]
  else recur (pathJoin curDir child.name) child.sha

/-- `traverseTree`: read and parse the tree object, then process its children
in order, collecting the `(path, contents)` pairs written to disk.
Recursion depth is bounded by explicit fuel; every run evaluated below
receives enough fuel to finish. -/
def traverseTree : Nat → Store → List Nat → List Nat → Except String (List (List Nat × List Nat))
  | 0, _, _, _ => .error "model: fuel exhausted"
  | f+1, store, curDir, treeSha =>
    match readObjectContent store treeSha with
    | .error e => .error e
    | .ok treeBuf =>
      match parseTree treeBuf with
      | .error e => .error e
      | .ok children =>
        children.foldlM (fun acc child =>
          match traverseChildWith (traverseTree f store) store curDir child with
          | .error e => .error e
          | .ok w => .ok (acc ++ w)) []

/-- Counterexample store: tree `aa…a` has a single entry with the unsupported
mode `120000` pointing at object `bb…b`, which parses as an empty tree. -/
def cexStore : Store :=
  [(List.replicate 40 97,
      bytes "tree 29" ++ [0] ++ bytes "120000 s" ++ [0] ++ List.replicate 20 187),
   (List.replicate 40 98, bytes "tree 0" ++ [0])]

/-! Clone ordering (`main`'s `clone` branch).  The observable repository
state is modelled per executed statement: the branch ref file, the
in-memory pack table, the objects persisted to `.git/objects`, and whether
the working tree has been restored. -/

inductive CloneStep where
  | initRepo
  | fetchCommit
  | writeRef
  | fetchObjs
  | writeObjs
  | restore
deriving DecidableEq, Repr

structure CloneState where
  refMaster : Option (List Nat)
  memObjects : List (List Nat)
  storeObjects : List (List Nat)
  restored : Bool
deriving DecidableEq, Repr, Inhabited

/-- Effect of each statement of the `clone` branch on the observable state,
given the advertised tip digest and the digests carried by the packfile. -/
def cloneApply (tip : List Nat) (objs : List (List Nat)) (s : CloneState) :
    CloneStep → CloneState
  | .initRepo => s
  | .fetchCommit => s
  | .writeRef => { s with refMaster := some tip }
  | .fetchObjs => { s with memObjects := objs }
  | .writeObjs => { s with storeObjects := s.memObjects }
  | .restore => { s with restored := true }

/-- The statements of the `clone` branch in source order:
`initGitRepository`, `fetchLatestCommit`, `writeBranchRefFile`,
`fetchObjects`, `writeFetchedObjects`, `restoreRepository`. -/
def cloneSteps : List CloneStep :=
  [.initRepo, .fetchCommit, .writeRef, .fetchObjs, .writeObjs, .restore]

/-- All intermediate states of one `clone` run, starting from a fresh repository. -/
def cloneStates (tip : List Nat) (objs : List (List Nat)) : List CloneState :=
  List.scanl (cloneApply tip objs) ⟨none, [], [], false⟩ cloneSteps

/-! ### Shared lemmas -/

/-- A single byte below 128 is a complete varint: `ReadUvarint` returns its
value and the remaining bytes. -/
theorem readUvarint_single (b : Nat) (rest : List Nat) (h : b < 128) :
    readUvarint (b :: rest) = .ok (b, rest) := by
  have h10 : ¬((0 : Nat) = 10) := by omega
  have h9 : ¬((0 : Nat) = 9 ∧ 1 < b) := by omega
  simp [readUvarint, readUvarintAux, h, h10, h9]

/-- When the instruction loop meets a copy instruction whose decoded range
ends past the base payload, it stops with the slice-bounds error. -/
theorem applyDelta_oob (f op : Nat) (tail base acc r1 r2 : List Nat) (offset size : Nat)
    (hmsb : ¬(op &&& 128 = 0)) (ho : readCopyOffset op tail = .ok (offset, r1))
    (hs : readCopySize op r1 = .ok (size, r2)) (hoob : base.length < offset + size) :
    applyDelta (f + 1) (op :: tail) base acc = .error slicePanicMsg := by
  have hle : ¬(offset + size ≤ base.length) := by omega
  simp [applyDelta, hmsb, ho, hs, hle]

/-! ### Claims -/

/-- C1: the digest `commit-tree` prints and writes to `refs/heads/master` is
SHA-1 of the bare commit payload, not of the header-prefixed serialization
it stores; at tree `"t"`, parent `"p"`, message `"m"` the two digests
differ, so the stored commit object violates `digest = SHA1(header ++ payload)`. -/
theorem commitDigestBarePayload :
    commitHashHex (bytes "t") (bytes "p") (bytes "m") ≠
      hexBytes (sha1 (commitStoreContents (bytes "t") (bytes "p") (bytes "m"))) := by decide

/-- C2: on the entry header bytes `80 81 01` the parser returns length 4112,
because the continuation byte `0x81` is added without masking its most
significant bit, while the claim's formula yields 2064. -/
theorem headerVarintUnmaskedContinuation :
    readObjectTypeAndLen [128, 129, 1] = .ok (0, 4112, []) ∧
    specHeaderLen [128, 129, 1] = some 2064 := by
  exact ⟨by decide, by decide⟩

/-- C3: a copy instruction whose size reads as 0 copies zero bytes — not
65536: on base `"AB"` the delta `[2, 0, 0x81, 0]` (copy, offset 0, no size
bytes) succeeds with empty output. -/
theorem copySizeZeroCopiesNothing :
    readDeltified [2, 0, 129, 0] ⟨3, bytes "AB"⟩ = .ok [] := by decide

/-- C4: a packfile whose 20-byte trailer does not equal SHA-1 of the
preceding bytes is not a fatal error: `fetchObjects` merely records the
printed diagnostic and parsing continues to a successful result. -/
theorem packChecksumMismatchNotFatal :
    fetchObjects cexBadPack =
      .ok ⟨true, [(hexBytes (sha1 (storeContents "blob" [65])), ⟨3, [65]⟩)]⟩ := by decide

/-- C5 (counterexample): a delta declaring base size 5 against the 2-byte
base `"AB"` is accepted and applied normally, refuting the claimed fatal
base-size-mismatch check. -/
theorem readDeltifiedIgnoresBaseSizeCex :
    readDeltified [5, 1, 1, 88] ⟨3, bytes "AB"⟩ = .ok [88] := by decide

/-- C5 (amended): `readDeltified` reads the base-size varint and discards
it — the result is independent of the declared base size and no comparison
with the base payload length is made. -/
theorem readDeltifiedBaseSizeIrrelevant (b c : Nat) (rest : List Nat) (baseObj : Object)
    (hb : b < 128) (hc : c < 128) :
    readDeltified (b :: rest) baseObj = readDeltified (c :: rest) baseObj := by
  simp [readDeltified, readUvarint_single b rest hb, readUvarint_single c rest hc]

/-- C5 witness: two different single-byte base sizes, same result. -/
theorem readDeltifiedBaseSizeIrrelevantWitness :
    ((5 : Nat) < 128 ∧ (2 : Nat) < 128) ∧
    readDeltified (5 :: [1, 1, 88]) ⟨3, bytes "AB"⟩ =
      readDeltified (2 :: [1, 1, 88]) ⟨3, bytes "AB"⟩ :=
  ⟨by decide, readDeltifiedBaseSizeIrrelevant 5 2 [1, 1, 88] ⟨3, bytes "AB"⟩ (by decide) (by decide)⟩

/-- C6: `cat-file -p` on the stored blob for contents `61 00 62` prints only
`61` — the payload is cut at its first NUL, so the hash-object/cat-file
round trip fails for contents containing NUL bytes. -/
theorem catFileTruncatesAtNul :
    catFileP (storeContents "blob" [97, 0, 98]) = [97] ∧
    catFileP (storeContents "blob" [97, 0, 98]) ≠ [97, 0, 98] := by
  exact ⟨by decide, by decide⟩

/-- C7: for a directory with empty subdirectories `a` and `a-b`, `write-tree`
emits the `a` entry first (its comparator key is the row suffix after the
first space: name, NUL, then the raw digest bytes), while the canonical
ordering — names compared as if directories ended in `/` — puts `a-b`
first; the emitted payload differs from the canonical payload. -/
theorem treeSortOrderNotCanonical :
    writeTreePayload 2 cexDirListing =
      treeRowF 2 (.dir (bytes "a") []) ++ treeRowF 2 (.dir (bytes "a-b") []) ∧
    specCanonicalTreePayload 2 cexDirListing =
      treeRowF 2 (.dir (bytes "a-b") []) ++ treeRowF 2 (.dir (bytes "a") []) ∧
    writeTreePayload 2 cexDirListing ≠ specCanonicalTreePayload 2 cexDirListing := by
  exact ⟨by decide, by decide, by decide⟩

/-- C8 (counterexample): checkout of a tree whose sole entry has the
unsupported mode `120000` does not fail with an unsupported-mode error: the
entry is recursed into as a directory and the traversal succeeds. -/
theorem traverseTreeUnsupportedModeCex :
    traverseTree 3 cexStore [] (List.replicate 40 97) = .ok [] := by decide

/-- C8 (amended): a tree entry whose mode does not start with `100` —
including unsupported modes — is recursed into as a directory; it is never
materialized as a file and no unsupported-mode error is raised for it. -/
theorem traverseChildNonFileRecurses (f : Nat) (store : Store) (curDir : List Nat)
    (child : TreeChild) (h : (bytes "100").isPrefixOf child.mode = false) :
    traverseChildWith (traverseTree f store) store curDir child =
      traverseTree f store (pathJoin curDir child.name) child.sha := by
  simp [traverseChildWith, h]

/-- C8 witness: the mode `120000` entry of the counterexample store is
processed by recursing into it as a tree. -/
theorem traverseChildNonFileRecursesWitness :
    ((bytes "100").isPrefixOf (bytes "120000") = false) ∧
    traverseChildWith (traverseTree 2 cexStore) cexStore []
        ⟨bytes "120000", bytes "s", List.replicate 40 98⟩ =
      traverseTree 2 cexStore (pathJoin [] (bytes "s")) (List.replicate 40 98) :=
  ⟨by decide, traverseChildNonFileRecurses 2 cexStore []
    ⟨bytes "120000", bytes "s", List.replicate 40 98⟩ (by decide)⟩

/-- C9 (counterexample): in the state reached right after the third clone
statement (`writeBranchRefFile`), the branch ref names the fetched tip
while the object store is still empty — an intermediate state in which the
ref points at a commit whose object has not been written. -/
theorem cloneRefBeforeObjectsCex :
    ((cloneStates (bytes "c1") [bytes "c1"]).getD 3 default).refMaster = some (bytes "c1") ∧
    ((cloneStates (bytes "c1") [bytes "c1"]).getD 3 default).storeObjects = [] := by
  exact ⟨by decide, by decide⟩

/-- C9 (amended): within one clone, the update of `refs/heads/master`
precedes every object write — after `writeBranchRefFile` the ref names the
tip and `.git/objects` is still empty, for every tip and every packfile
content. -/
theorem cloneRefUpdatePrecedesObjectWrites (tip : List Nat) (objs : List (List Nat)) :
    ((cloneStates tip objs).getD 3 default).refMaster = some tip ∧
    ((cloneStates tip objs).getD 3 default).storeObjects = [] := by
  constructor <;> rfl

/-- C10: the delta engine performs no bounds check and never clamps: whenever
the instruction loop reaches a copy instruction whose decoded
`offset + size` exceeds the base payload length, the out-of-range slice
`base[offset : offset+size]` lands in the error branch of the total
embedding, so `readDeltified` returns no normal (and no clamped) result. -/
theorem deltaCopyOutOfRangeErrors (f b r op ty : Nat)
    (tail base acc r1 r2 : List Nat) (offset size : Nat)
    (hb : b < 128) (hr : r < 128) (hmsb : ¬(op &&& 128 = 0))
    (ho : readCopyOffset op tail = .ok (offset, r1))
    (hs : readCopySize op r1 = .ok (size, r2))
    (hoob : base.length < offset + size) :
    applyDelta (f + 1) (op :: tail) base acc = .error slicePanicMsg ∧
    readDeltified (b :: r :: op :: tail) ⟨ty, base⟩ = .error slicePanicMsg := by
  refine ⟨applyDelta_oob f op tail base acc r1 r2 offset size hmsb ho hs hoob, ?_⟩
  have h1 := readUvarint_single b (r :: op :: tail) hb
  have h2 := readUvarint_single r (op :: tail) hr
  have h3 := applyDelta_oob (tail.length + 1) op tail base [] r1 r2 offset size hmsb ho hs hoob
  simp [readDeltified, h1, h2, List.length_cons, h3]

/-- C10 witness: copying 5 bytes at offset 5 from a 3-byte base errors out. -/
theorem deltaCopyOutOfRangeErrorsWitness :
    (¬((145 : Nat) &&& 128 = 0) ∧ readCopyOffset 145 [5, 5] = .ok (5, [5]) ∧
      readCopySize 145 [5] = .ok (5, []) ∧ ([1, 2, 3] : List Nat).length < 5 + 5) ∧
    (applyDelta (0 + 1) [145, 5, 5] [1, 2, 3] [] = .error slicePanicMsg ∧
      readDeltified [0, 0, 145, 5, 5] ⟨3, [1, 2, 3]⟩ = .error slicePanicMsg) :=
  ⟨by decide, deltaCopyOutOfRangeErrors 0 0 0 145 3 [5, 5] [1, 2, 3] [] [5] [] 5 5
    (by decide) (by decide) (by decide) (by decide) (by decide) (by decide)⟩
